import Mathlib

/-!
A shallow embedding of the MySQL → PostgreSQL data-migration scripts
(`migrate-data.py`, `verify-migration.py`, `config.py`) of the
apache_ranger_26_mysql_2_pgsql repository, together with theorems about the
table-ordering resolver, the destructive reset, the batched row-transfer
engine, the sequence reconciler and the verification pass.

Database connections are external collaborators: they are modelled by
predicates and by an explicit destination state (committed rows, pending
uncommitted rows, and a trace of issued statements).  A row either satisfies
the destination constraints (`ok row = true`) or violates them; a multi-row
batch insert succeeds exactly when every row of the batch inserts
successfully.  `commit` moves pending rows into the committed state;
`rollback` discards pending rows.  Global configuration (`MIGRATION_CONFIG`,
`PRIORITY_TABLES_ORDER`, the sequence-binding table) is passed explicitly.
-/

namespace RangerMigration

/-- `MIGRATION_CONFIG` from `config.py` (the `log_level` entry is unused by
the scripts and omitted). -/
structure MigrationConfig where
  batch_size : Nat
  skip_tables : List String
  truncate_before_insert : Bool
  skip_missing_tables : Bool
deriving DecidableEq

/-- The concrete `MIGRATION_CONFIG` value of `config.py`. -/
def MIGRATION_CONFIG : MigrationConfig :=
  { batch_size := 1000
    skip_tables := ["vx_principal"]
    truncate_before_insert := true
    skip_missing_tables := true }


/-- `PRIORITY_TABLES_ORDER` from `config.py`. -/
def PRIORITY_TABLES_ORDER : List String := [
  "x_portal_user",
  "x_cred_store",
  "x_user",
  "x_group",
  "x_group_groups",
  "x_group_users",
  "x_auth_sess",
  "x_service_def",
  "x_service",
  "x_service_config_def",
  "x_service_config_map",
  "x_resource_def",
  "x_access_type_def",
  "x_access_type_def_grants",
  "x_policy_condition_def",
  "x_context_enricher_def",
  "x_enum_def",
  "x_enum_element_def",
  "x_security_zone",
  "x_ranger_global_state",
  "x_asset",
  "x_resource",
  "x_policy",
  "x_policy_resource",
  "x_policy_resource_map",
  "x_policy_item",
  "x_policy_item_access",
  "x_policy_item_condition",
  "x_policy_item_user_perm",
  "x_policy_item_group_perm",
  "x_datamask_type_def",
  "x_policy_item_datamask",
  "x_policy_item_rowfilter",
  "x_tag_def",
  "x_tag",
  "x_service_resource",
  "x_tag_resource_map",
  "x_role",
  "x_role_ref_user",
  "x_role_ref_group",
  "x_role_ref_role",
  "x_policy_ref_resource",
  "x_policy_ref_access_type",
  "x_policy_ref_condition",
  "x_policy_ref_datamask_type",
  "x_policy_ref_user",
  "x_policy_ref_group",
  "x_policy_ref_role",
  "x_security_zone_ref_service",
  "x_security_zone_ref_tag_srvc",
  "x_security_zone_ref_resource",
  "x_security_zone_ref_user",
  "x_security_zone_ref_group",
  "x_security_zone_ref_role",
  "x_modules_master",
  "x_user_module_perm",
  "x_group_module_perm",
  "x_gds_dataset",
  "x_gds_project",
  "x_gds_data_share",
  "x_gds_shared_resource",
  "x_gds_data_share_in_dataset",
  "x_gds_dataset_in_project",
  "x_gds_dataset_policy_map",
  "x_gds_project_policy_map",
  "x_rms_service_resource",
  "x_rms_notification",
  "x_rms_resource_mapping",
  "x_rms_mapping_provider",
  "x_policy_change_log",
  "x_tag_change_log",
  "x_policy_export_audit",
  "x_ugsync_audit_info",
  "x_service_version_info",
  "x_plugin_info",
  "x_policy_label",
  "x_policy_label_map",
  "x_data_hist",
  "x_perm_map",
  "x_audit_map",
  "x_db_base",
  "x_db_version_h",
  "xa_access_audit",
  "x_trx_log_v2"
]

/-- The hard-coded `sequence_mappings` of `update_sequences` (migrate-data.py 279-364). -/
def sequence_mappings : List (String × String) := [
  ("x_portal_user", "x_portal_user_seq"),
  ("x_portal_user_role", "x_portal_user_role_seq"),
  ("xa_access_audit", "xa_access_audit_seq"),
  ("x_asset", "x_asset_seq"),
  ("x_auth_sess", "x_auth_sess_seq"),
  ("x_cred_store", "x_cred_store_seq"),
  ("x_db_base", "x_db_base_seq"),
  ("x_group", "x_group_seq"),
  ("x_group_groups", "x_group_groups_seq"),
  ("x_user", "x_user_seq"),
  ("x_group_users", "x_group_users_seq"),
  ("x_policy_export_audit", "x_policy_export_seq"),
  ("x_resource", "x_resource_seq"),
  ("x_perm_map", "x_perm_map_seq"),
  ("x_audit_map", "x_audit_map_seq"),
  ("x_trx_log_v2", "x_trx_log_v2_seq"),
  ("x_service_def", "x_service_def_seq"),
  ("x_service", "x_service_seq"),
  ("x_security_zone", "x_security_zone_seq"),
  ("x_ranger_global_state", "x_ranger_global_state_seq"),
  ("x_policy", "x_policy_seq"),
  ("x_service_config_def", "x_service_config_def_seq"),
  ("x_resource_def", "x_resource_def_seq"),
  ("x_access_type_def", "x_access_type_def_seq"),
  ("x_access_type_def_grants", "x_access_type_def_grants_seq"),
  ("x_policy_condition_def", "x_policy_condition_def_seq"),
  ("x_context_enricher_def", "x_context_enricher_def_seq"),
  ("x_enum_def", "x_enum_def_seq"),
  ("x_enum_element_def", "x_enum_element_def_seq"),
  ("x_service_config_map", "x_service_config_map_seq"),
  ("x_policy_resource", "x_policy_resource_seq"),
  ("x_policy_resource_map", "x_policy_resource_map_seq"),
  ("x_policy_item", "x_policy_item_seq"),
  ("x_policy_item_access", "x_policy_item_access_seq"),
  ("x_policy_item_condition", "x_policy_item_condition_seq"),
  ("x_policy_item_user_perm", "x_policy_item_user_perm_seq"),
  ("x_policy_item_group_perm", "x_policy_item_group_perm_seq"),
  ("x_data_hist", "x_data_hist_seq"),
  ("x_modules_master", "x_modules_master_seq"),
  ("x_user_module_perm", "x_user_module_perm_seq"),
  ("x_group_module_perm", "x_group_module_perm_seq"),
  ("x_tag_def", "x_tag_def_seq"),
  ("x_tag", "x_tag_seq"),
  ("x_service_resource", "x_service_resource_seq"),
  ("x_tag_resource_map", "x_tag_resource_map_seq"),
  ("x_datamask_type_def", "x_datamask_type_def_seq"),
  ("x_policy_item_datamask", "x_policy_item_datamask_seq"),
  ("x_policy_item_rowfilter", "x_policy_item_rowfilter_seq"),
  ("x_service_version_info", "x_service_version_info_seq"),
  ("x_plugin_info", "x_plugin_info_seq"),
  ("x_policy_label", "x_policy_label_seq"),
  ("x_policy_label_map", "x_policy_label_map_seq"),
  ("x_ugsync_audit_info", "x_ugsync_audit_info_seq"),
  ("x_policy_ref_resource", "x_policy_ref_resource_seq"),
  ("x_policy_ref_access_type", "x_policy_ref_access_type_seq"),
  ("x_policy_ref_condition", "x_policy_ref_condition_seq"),
  ("x_policy_ref_datamask_type", "x_policy_ref_datamask_type_seq"),
  ("x_policy_ref_user", "x_policy_ref_user_seq"),
  ("x_policy_ref_group", "x_policy_ref_group_seq"),
  ("x_security_zone_ref_service", "x_sec_zone_ref_service_seq"),
  ("x_security_zone_ref_tag_srvc", "x_sec_zone_ref_tag_srvc_seq"),
  ("x_security_zone_ref_resource", "x_sec_zone_ref_resource_seq"),
  ("x_security_zone_ref_user", "x_sec_zone_ref_user_seq"),
  ("x_security_zone_ref_group", "x_sec_zone_ref_group_seq"),
  ("x_policy_change_log", "x_policy_change_log_seq"),
  ("x_role", "x_role_seq"),
  ("x_role_ref_user", "x_role_ref_user_seq"),
  ("x_role_ref_group", "x_role_ref_group_seq"),
  ("x_policy_ref_role", "x_policy_ref_role_seq"),
  ("x_role_ref_role", "x_role_ref_role_seq"),
  ("x_security_zone_ref_role", "x_sec_zone_ref_role_seq"),
  ("x_tag_change_log", "x_tag_change_log_seq"),
  ("x_rms_service_resource", "x_rms_service_resource_seq"),
  ("x_rms_notification", "x_rms_notification_seq"),
  ("x_rms_resource_mapping", "x_rms_resource_mapping_seq"),
  ("x_rms_mapping_provider", "x_rms_mapping_provider_seq"),
  ("x_gds_dataset", "x_gds_dataset_seq"),
  ("x_gds_project", "x_gds_project_seq"),
  ("x_gds_data_share", "x_gds_data_share_seq"),
  ("x_gds_shared_resource", "x_gds_shared_resource_seq"),
  ("x_gds_data_share_in_dataset", "x_gds_data_share_in_dataset_seq"),
  ("x_gds_dataset_in_project", "x_gds_dataset_in_project_seq"),
  ("x_gds_dataset_policy_map", "x_gds_dataset_policy_map_seq"),
  ("x_gds_project_policy_map", "x_gds_project_policy_map_seq")
]

/-! ## Table ordering resolver (`get_mysql_tables_ordered`, migrate-data.py 59-100) -/

/-- The filter of the candidate loop (migrate-data.py 66-81): a table is kept
when it is not in `skip_tables`, is not a view on the destination, and exists
on the destination.  `isV` and `ex` model the `is_view` / `table_exists`
catalog probes.  Note that the existence filter is unconditional: the
function never consults `skip_missing_tables`. -/
def eligibleTable (cfg : MigrationConfig) (isV ex : String → Bool) (t : String) : Bool :=
  !(cfg.skip_tables.contains t) && !(isV t) && ex t

/-- `valid_tables` after the filtering loop (migrate-data.py 66-81). -/
def validTables (cfg : MigrationConfig) (isV ex : String → Bool)
    (allTables : List String) : List String :=
  allTables.filter (eligibleTable cfg isV ex)

/-- The priority walk (migrate-data.py 86-90): walk the priority list in
order; each name present in the remaining valid set is appended to the output
and removed (Python `list.remove`, first occurrence) from the valid set.
Returns (ordered priority part, remaining valid tables). -/
def priorityWalk : List String → List String → List String × List String
  | [], valid => ([], valid)
  | p :: ps, valid =>
    if p ∈ valid then
      let r := priorityWalk ps (valid.erase p)
      (p :: r.1, r.2)
    else
      priorityWalk ps valid

/-- `get_mysql_tables_ordered` (migrate-data.py 59-100): filter the source
table list, emit priority-listed tables in list order, then the remaining
tables sorted alphabetically (Python `list.sort`). -/
def get_mysql_tables_ordered (cfg : MigrationConfig) (isV ex : String → Bool)
    (prio : List String) (allTables : List String) : List String :=
  let valid := validTables cfg isV ex allTables
  let w := priorityWalk prio valid
  w.1 ++ List.insertionSort (fun a b => a ≤ b) w.2

/-- `get_all_tables` of verify-migration.py (103-158): same ordering over the
deduplicated union of source and destination table names, filtered only by
`skip_tables` and the view check (no destination-existence filter). -/
def get_all_tables (cfg : MigrationConfig) (isV : String → Bool)
    (prio : List String) (mysqlTables postgresTables : List String) : List String :=
  let valid := (mysqlTables ++ postgresTables).dedup.filter
    (fun t => !(cfg.skip_tables.contains t) && !(isV t))
  let w := priorityWalk prio valid
  w.1 ++ List.insertionSort (fun a b => a ≤ b) w.2

/-! ## Destructive reset (`truncate_postgres_tables`, migrate-data.py 102-160) -/

/-- Result of the reset pass: the tables on which a `TRUNCATE` was attempted
(those that passed the existence check), the tables actually cleared, and the
`truncated_count` counter. -/
structure TruncResult where
  attempted : List String
  cleared : List String
  truncated_count : Nat
deriving DecidableEq

/-- One iteration of the reset loop (migrate-data.py 109-157).  A table absent
from the destination is skipped under either value of `skip_missing_tables`
(both branches only log, then `continue`).  For an existing table the
`TRUNCATE ... CASCADE` is attempted; `clearOk` says whether it succeeds.  On
failure the error handler rolls the per-table transaction back and the loop
continues.  Each successful clear is committed inside the iteration
(migrate-data.py 135). -/
def truncateStep (cfg : MigrationConfig) (ex clearOk : String → Bool)
    (st : TruncResult) (t : String) : TruncResult :=
  if ex t then
    if clearOk t then
      { attempted := st.attempted ++ [t]
        cleared := st.cleared ++ [t]
        truncated_count := st.truncated_count + 1 }
    else
      { st with attempted := st.attempted ++ [t] }
  else
    if cfg.skip_missing_tables then st else st

/-- `truncate_postgres_tables` (migrate-data.py 102-160): process the
reversed priority list. -/
def truncate_postgres_tables (cfg : MigrationConfig) (ex clearOk : String → Bool)
    (prio : List String) : TruncResult :=
  prio.reverse.foldl (truncateStep cfg ex clearOk) ⟨[], [], 0⟩


/-! ## Row transfer engine (`migrate_table_data`, migrate-data.py 192-273) -/

/-- A destination statement issued by the transfer engine. -/
inductive DbOp (α : Type) where
  | insertBatch : List α → DbOp α
  | insertOne : α → DbOp α
  | rollback : DbOp α
  | commit : DbOp α
deriving DecidableEq

/-- In-flight state of one table transfer: rows inserted but not yet
committed in the current destination transaction, the `insert_count`
counter, and the trace of issued statements. -/
structure TableRunState (α : Type) where
  pending : List α
  count : Nat
  ops : List (DbOp α)
deriving DecidableEq

/-- One iteration of the row-by-row fallback (migrate-data.py 247-257): a
single-row `INSERT` is issued; a row satisfying the destination constraints
joins the pending transaction and increments `insert_count`, a violating row
is logged and skipped. -/
def insertRow (ok : α → Bool) (st : TableRunState α) (row : α) : TableRunState α :=
  if ok row then
    { pending := st.pending ++ [row]
      count := st.count + 1
      ops := st.ops ++ [DbOp.insertOne row] }
  else
    { st with ops := st.ops ++ [DbOp.insertOne row] }

/-- One iteration of the batch loop (migrate-data.py 226-257).  The
`executemany` succeeds exactly when every row of the batch inserts
successfully; on failure the handler issues `postgres_conn.rollback()` —
discarding ALL pending rows of the table's transaction, not only the failed
batch — and replays the batch row by row. -/
def processBatch (ok : α → Bool) (st : TableRunState α) (batch : List α) : TableRunState α :=
  if batch.all ok then
    { pending := st.pending ++ batch
      count := st.count + batch.length
      ops := st.ops ++ [DbOp.insertBatch batch] }
  else
    let st1 : TableRunState α :=
      { pending := []
        count := st.count
        ops := st.ops ++ [DbOp.insertBatch batch, DbOp.rollback] }
    batch.foldl (insertRow ok) st1

/-- `range(0, len(rows), batch_size)` slicing (migrate-data.py 226-227):
partition a list into consecutive chunks of size `bs` (the last chunk may be
shorter).  Degenerate guard: a zero batch size yields no chunks (Python
`range` would reject a zero step).  Defined structurally over a fuel
parameter so that it evaluates by kernel reduction. -/
def chunkAux (bs : Nat) : Nat → List α → List (List α)
  | _, [] => []
  | 0, _ :: _ => []
  | fuel + 1, x :: xs =>
    if bs = 0 then []
    else (x :: xs).take bs :: chunkAux bs fuel ((x :: xs).drop bs)

/-- The chunking itself: the fuel `l.length` dominates the number of slices,
so `chunkAux` never runs out (see `chunkAux_fuel`). -/
def chunkList (bs : Nat) (l : List α) : List (List α) := chunkAux bs l.length l

/-- Outcome of one table transfer: the destination's committed rows for the
table after the final `commit`, the returned `insert_count`, and the trace of
issued statements. -/
structure TableResult (α : Type) where
  committed : List α
  count : Nat
  ops : List (DbOp α)
deriving DecidableEq

/-- `migrate_table_data` (migrate-data.py 192-273) for one table, starting
from committed destination rows `dest`.  Zero source rows: return 0
immediately, no destination statement issued (lines 203-205).  Otherwise run
the batch loop over the `batch_size`-chunks and commit once at the end
(line 259). -/
def migrate_table_data (ok : α → Bool) (bs : Nat) (dest : List α)
    (rows : List α) : TableResult α :=
  if rows.isEmpty then { committed := dest, count := 0, ops := [] }
  else
    let st := (chunkList bs rows).foldl (processBatch ok) ⟨[], 0, []⟩
    { committed := dest ++ st.pending
      count := st.count
      ops := st.ops ++ [DbOp.commit] }

/-- The per-table loop of `main` (migrate-data.py 442-446): migrate each
table in order, threading the destination state and accumulating
`total_migrated`. -/
def migrateRun (ok : α → Bool) (bs : Nat) (dest : List α)
    (tables : List (List α)) : List α × Nat :=
  tables.foldl
    (fun acc rows =>
      let r := migrate_table_data ok bs acc.1 rows
      (r.committed, acc.2 + r.count))
    (dest, 0)

/-! ## Sequence reconciler (`update_sequences`, migrate-data.py 275-411) -/

/-- One iteration of the sequence loop (migrate-data.py 367-409): skip a
binding whose table does not exist on the destination; skip a binding whose
sequence object does not exist; otherwise read
`COALESCE(MAX(id), 0)` (modelled by `maxId`) and, if positive, issue
`setval(sequence, max)` and count the update.  Each binding is committed
separately (line 397).  State: (issued setval actions, `updated_count`). -/
def sequenceStep (tableEx seqEx : String → Bool) (maxId : String → Nat)
    (st : List (String × Nat) × Nat) (b : String × String) :
    List (String × Nat) × Nat :=
  if tableEx b.1 then
    if seqEx b.2 then
      if 0 < maxId b.1 then (st.1 ++ [(b.2, maxId b.1)], st.2 + 1)
      else st
    else st
  else st

/-- The sequence loop over an arbitrary binding list. -/
def updateSequencesList (tableEx seqEx : String → Bool) (maxId : String → Nat)
    (mappings : List (String × String)) : List (String × Nat) × Nat :=
  mappings.foldl (sequenceStep tableEx seqEx maxId) ([], 0)

/-- `update_sequences` (migrate-data.py 275-411) over the hard-coded
`sequence_mappings` table. -/
def update_sequences (tableEx seqEx : String → Bool) (maxId : String → Nat) :
    List (String × Nat) × Nat :=
  updateSequencesList tableEx seqEx maxId sequence_mappings

/-! ## Verification pass (verify-migration.py) -/

/-- The per-table status tags of verify-migration.py. -/
inductive VStatus where
  | MATCH | MISMATCH | MISSING_MYSQL | MISSING_POSTGRES | MISSING_BOTH
  | EMPTY_MYSQL | EMPTY_POSTGRES
deriving DecidableEq

/-- What the probes observe for one table: existence on each side and the
result of `SELECT COUNT(*)` on each side (`none` models a query error). -/
structure TableProbe where
  mysql_exists : Bool
  postgres_exists : Bool
  mysql_rows : Option Nat
  postgres_rows : Option Nat
deriving DecidableEq

/-- `get_table_row_count` (verify-migration.py 66-77): the row count, or the
sentinel `-1` when the query raised. -/
def get_table_row_count : Option Nat → Int
  | some n => (n : Int)
  | none => -1

/-- `verify_table_data` (verify-migration.py 160-207): existence checks
first, then the status is decided by comparing the two (possibly sentinel)
row counts, with the equality case tested before the empty cases. -/
def verify_table_data (p : TableProbe) : VStatus :=
  if ¬ p.mysql_exists ∧ ¬ p.postgres_exists then VStatus.MISSING_BOTH
  else if ¬ p.mysql_exists then VStatus.MISSING_MYSQL
  else if ¬ p.postgres_exists then VStatus.MISSING_POSTGRES
  else
    let mc := get_table_row_count p.mysql_rows
    let pc := get_table_row_count p.postgres_rows
    if mc = pc then VStatus.MATCH
    else if pc = 0 then VStatus.EMPTY_POSTGRES
    else if mc = 0 then VStatus.EMPTY_MYSQL
    else VStatus.MISMATCH

/-- The statuses `main` treats as failures (verify-migration.py 337). -/
def isFailureStatus : VStatus → Bool
  | VStatus.MISMATCH => true
  | VStatus.MISSING_POSTGRES => true
  | VStatus.EMPTY_POSTGRES => true
  | _ => false

/-- The exit code computed by `main` (verify-migration.py 337-346): 0 when no
checked table has a failure status, 1 otherwise. -/
def verifyExitCode (probes : List TableProbe) : Nat :=
  if (probes.filter (fun p => isFailureStatus (verify_table_data p))).isEmpty
  then 0 else 1


/-! ## Lemmas about the row transfer engine -/

theorem insertRow_foldl (ok : α → Bool) (batch : List α) (st : TableRunState α) :
    batch.foldl (insertRow ok) st =
      { pending := st.pending ++ batch.filter ok
        count := st.count + (batch.filter ok).length
        ops := st.ops ++ batch.map DbOp.insertOne } := by
  induction batch generalizing st with
  | nil => simp
  | cons x xs ih =>
    by_cases hx : ok x
    · simp only [List.foldl_cons, insertRow, hx, if_true, ih, List.filter_cons,
        List.length_cons, List.map_cons]
      refine TableRunState.mk.injEq _ _ _ _ _ _ ▸ ?_
      simp [List.append_assoc]
      omega
    · simp [insertRow, hx, ih, List.filter_cons]

theorem processBatch_all_ok {ok : α → Bool} {batch : List α}
    (h : batch.all ok = true) (st : TableRunState α) :
    processBatch ok st batch =
      { pending := st.pending ++ batch
        count := st.count + batch.length
        ops := st.ops ++ [DbOp.insertBatch batch] } := by
  simp [processBatch, h]

theorem processBatch_not_all_ok {ok : α → Bool} {batch : List α}
    (h : batch.all ok = false) (st : TableRunState α) :
    processBatch ok st batch =
      { pending := batch.filter ok
        count := st.count + (batch.filter ok).length
        ops := st.ops ++ [DbOp.insertBatch batch, DbOp.rollback]
                 ++ batch.map DbOp.insertOne } := by
  simp only [processBatch, h, Bool.false_eq_true, if_false, insertRow_foldl,
    List.append_assoc, List.nil_append]

theorem foldl_processBatch_all_ok {ok : α → Bool} (bl : List (List α))
    (h : ∀ b ∈ bl, b.all ok = true) (st : TableRunState α) :
    bl.foldl (processBatch ok) st =
      { pending := st.pending ++ bl.flatten
        count := st.count + bl.flatten.length
        ops := st.ops ++ bl.map DbOp.insertBatch } := by
  induction bl generalizing st with
  | nil => simp
  | cons b bs ih =>
    rw [List.foldl_cons, processBatch_all_ok (h b (List.mem_cons_self b bs)),
      ih (fun x hx => h x (List.mem_cons_of_mem b hx))]
    simp [Nat.add_assoc]

theorem chunkAux_fuel (bs : Nat) :
    ∀ (f1 : Nat) (l : List α) (f2 : Nat), l.length ≤ f1 → l.length ≤ f2 →
      chunkAux bs f1 l = chunkAux bs f2 l := by
  intro f1
  induction f1 with
  | zero =>
    intro l f2 h1 _
    have h0 : l = [] := List.eq_nil_of_length_eq_zero (Nat.le_zero.mp h1)
    subst h0
    cases f2 <;> rfl
  | succ f ih =>
    intro l f2 h1 h2
    match l with
    | [] => cases f2 <;> rfl
    | x :: xs =>
      match f2 with
      | 0 => simp at h2
      | f2 + 1 =>
        show (if bs = 0 then [] else _) = (if bs = 0 then [] else _)
        by_cases hbs : bs = 0
        · rw [if_pos hbs, if_pos hbs]
        · rw [if_neg hbs, if_neg hbs]
          congr 1
          exact ih _ _ (by simp at h1 ⊢; omega) (by simp at h2 ⊢; omega)

theorem chunkList_cons_eq {bs : Nat} {l : List α} (hbs : bs ≠ 0) (hl : l ≠ []) :
    chunkList bs l = l.take bs :: chunkList bs (l.drop bs) := by
  match l with
  | [] => exact absurd rfl hl
  | x :: xs =>
    show chunkAux bs (xs.length + 1) (x :: xs) = _
    rw [chunkAux, if_neg hbs]
    congr 1
    exact chunkAux_fuel bs xs.length _ _ (by simp; omega) (by simp)

theorem chunkList_flatten {bs : Nat} (hbs : bs ≠ 0) (l : List α) :
    (chunkList bs l).flatten = l := by
  have aux : ∀ (n : Nat) (l : List α), l.length ≤ n → (chunkList bs l).flatten = l := by
    intro n
    induction n with
    | zero =>
      intro l hl
      have h0 : l = [] := List.eq_nil_of_length_eq_zero (Nat.le_zero.mp hl)
      subst h0
      rfl
    | succ n ih =>
      intro l hl
      match l with
      | [] => rfl
      | x :: xs =>
        rw [chunkList_cons_eq hbs (List.cons_ne_nil x xs), List.flatten_cons,
          ih _ (by simp at hl ⊢; omega), List.take_append_drop]
  exact aux l.length l (Nat.le_refl _)

theorem chunkList_append {bs : Nat} (hbs : bs ≠ 0) :
    ∀ (m : Nat) (A B : List α), A.length = bs * m →
      chunkList bs (A ++ B) = chunkList bs A ++ chunkList bs B := by
  intro m
  induction m with
  | zero =>
    intro A B hA
    have h0 : A = [] := List.eq_nil_of_length_eq_zero (by simpa using hA)
    subst h0
    rw [List.nil_append]
    rfl
  | succ m ih =>
    intro A B hA
    rw [Nat.mul_succ] at hA
    have hble : bs ≤ A.length := by omega
    have hAne : A ≠ [] := by
      intro h0
      rw [h0] at hA
      simp at hA
      omega
    have hABne : A ++ B ≠ [] := by
      intro h0
      exact hAne (List.append_eq_nil.mp h0).1
    rw [chunkList_cons_eq hbs hABne, chunkList_cons_eq hbs hAne,
      List.take_append_eq_append_take, Nat.sub_eq_zero_of_le hble,
      List.take_zero, List.append_nil,
      List.drop_append_eq_append_drop, Nat.sub_eq_zero_of_le hble,
      List.drop_zero, List.cons_append]
    congr 1
    exact ih (A.drop bs) B (by simp [hA])

theorem mem_of_mem_chunkList {bs : Nat} {l : List α} {b : List α} {x : α}
    (hbs : bs ≠ 0) (hb : b ∈ chunkList bs l) (hx : x ∈ b) : x ∈ l := by
  rw [← chunkList_flatten hbs l]
  exact List.mem_flatten.mpr ⟨b, hb, hx⟩

theorem migrate_table_data_all_ok {ok : α → Bool} {bs : Nat} {rows : List α}
    (hbs : bs ≠ 0) (h : rows.all ok = true) (dest : List α) :
    (migrate_table_data ok bs dest rows).committed = dest ++ rows ∧
      (migrate_table_data ok bs dest rows).count = rows.length := by
  match rows with
  | [] => simp [migrate_table_data]
  | x :: xs =>
    have hall : ∀ b ∈ chunkList bs (x :: xs), b.all ok = true := by
      intro b hb
      exact List.all_eq_true.mpr fun y hy =>
        List.all_eq_true.mp h y (mem_of_mem_chunkList hbs hb hy)
    rw [migrate_table_data]
    simp only [List.isEmpty_cons, Bool.false_eq_true, if_false]
    rw [foldl_processBatch_all_ok _ hall, chunkList_flatten hbs]
    simp

/-- Characterization of a table transfer whose source rows contain exactly one
row violating the destination constraints: writing the rows as
`pre ++ r :: post` with every row of `pre` and `post` fine and `r` violating,
the final committed rows are the fine rows from the start of the batch
containing `r` onward (the batches before it are discarded by the
connection-level rollback of the fallback handler), while the returned
`insert_count` is the full row count minus one. -/
theorem migrate_one_bad {ok : α → Bool} {bs : Nat} {pre post : List α} {r : α}
    (hbs : bs ≠ 0) (hpre : pre.all ok = true) (hr : ok r = false)
    (hpost : post.all ok = true) (dest : List α) :
    (migrate_table_data ok bs dest (pre ++ r :: post)).committed =
      dest ++ ((pre ++ r :: post).drop (bs * (pre.length / bs))).filter ok ∧
    (migrate_table_data ok bs dest (pre ++ r :: post)).count =
      pre.length + post.length := by
  have hbspos : 0 < bs := Nat.pos_of_ne_zero hbs
  set rows : List α := pre ++ r :: post with hrows
  set k : Nat := pre.length / bs with hk
  have hdm : bs * k + pre.length % bs = pre.length := Nat.div_add_mod pre.length bs
  have hmod : pre.length % bs < bs := Nat.mod_lt _ hbspos
  have hle : bs * k ≤ pre.length := by omega
  have hlerows : bs * k ≤ rows.length := by
    rw [hrows]
    simp only [List.length_append, List.length_cons]
    omega
  -- the prefix of complete all-fine batches
  have hA : rows.take (bs * k) = pre.take (bs * k) := by
    rw [hrows, List.take_append_eq_append_take, Nat.sub_eq_zero_of_le hle,
      List.take_zero, List.append_nil]
  have hAlen : (rows.take (bs * k)).length = bs * k := by
    rw [hA, List.length_take]
    omega
  have hAall : ∀ x ∈ rows.take (bs * k), ok x = true := by
    intro x hx
    exact List.all_eq_true.mp hpre x (List.take_subset _ _ (hA ▸ hx))
  -- the remainder, beginning with the batch that contains r
  have hB : rows.drop (bs * k) = pre.drop (bs * k) ++ r :: post := by
    rw [hrows, List.drop_append_eq_append_drop, Nat.sub_eq_zero_of_le hle,
      List.drop_zero]
  have hpre2all : ∀ x ∈ pre.drop (bs * k), ok x = true := by
    intro x hx
    exact List.all_eq_true.mp hpre x (List.drop_subset _ _ hx)
  have hpre2len : (pre.drop (bs * k)).length = pre.length % bs := by
    rw [List.length_drop]
    omega
  have hsplit : chunkList bs rows =
      chunkList bs (rows.take (bs * k)) ++ chunkList bs (rows.drop (bs * k)) := by
    conv_lhs => rw [← List.take_append_drop (bs * k) rows]
    exact chunkList_append hbs k _ _ hAlen
  have hBne : rows.drop (bs * k) ≠ [] := by
    rw [hB]
    intro h0
    exact List.cons_ne_nil r post (List.append_eq_nil.mp h0).2
  -- shape of the failing batch
  obtain ⟨m, hm⟩ : ∃ m, bs - (pre.drop (bs * k)).length = m + 1 :=
    ⟨bs - (pre.drop (bs * k)).length - 1, by omega⟩
  have hb1 : (rows.drop (bs * k)).take bs = pre.drop (bs * k) ++ r :: post.take m := by
    rw [hB, List.take_append_eq_append_take,
      List.take_of_length_le (by omega : (pre.drop (bs * k)).length ≤ bs), hm]
    rfl
  have hb1bad : ((rows.drop (bs * k)).take bs).all ok = false := by
    have hrmem : r ∈ (rows.drop (bs * k)).take bs := by
      rw [hb1]
      exact List.mem_append_right _ (List.mem_cons_self r _)
    rw [Bool.eq_false_iff]
    intro hall
    have := List.all_eq_true.mp hall r hrmem
    rw [hr] at this
    exact Bool.false_ne_true this
  have hb1filter : ((rows.drop (bs * k)).take bs).filter ok =
      pre.drop (bs * k) ++ post.take m := by
    rw [hb1, List.filter_append, List.filter_cons, hr]
    simp only [Bool.false_eq_true, if_false]
    rw [List.filter_eq_self.mpr hpre2all,
      List.filter_eq_self.mpr
        (fun x hx => List.all_eq_true.mp hpost x (List.take_subset _ _ hx))]
  -- the all-fine batches after the failing one
  have hB2 : (rows.drop (bs * k)).drop bs = post.drop m := by
    rw [hB, List.drop_append_eq_append_drop,
      List.drop_eq_nil_of_le (by omega : (pre.drop (bs * k)).length ≤ bs), hm]
    rfl
  have hB2all : ∀ b ∈ chunkList bs ((rows.drop (bs * k)).drop bs), b.all ok = true := by
    intro b hb
    refine List.all_eq_true.mpr fun y hy => ?_
    have hymem : y ∈ (rows.drop (bs * k)).drop bs := mem_of_mem_chunkList hbs hb hy
    rw [hB2] at hymem
    exact List.all_eq_true.mp hpost y (List.drop_subset _ _ hymem)
  have hAchunkall : ∀ b ∈ chunkList bs (rows.take (bs * k)), b.all ok = true := by
    intro b hb
    exact List.all_eq_true.mpr fun y hy => hAall y (mem_of_mem_chunkList hbs hb hy)
  -- evaluate the batch loop
  have hne : rows.isEmpty = false := by
    rw [List.isEmpty_eq_false, hrows]
    intro h0
    exact List.cons_ne_nil r post (List.append_eq_nil.mp h0).2
  rw [migrate_table_data, hne]
  simp only [Bool.false_eq_true, if_false]
  rw [hsplit, List.foldl_append,
    foldl_processBatch_all_ok _ hAchunkall, chunkList_flatten hbs,
    chunkList_cons_eq hbs hBne, List.foldl_cons,
    processBatch_not_all_ok hb1bad,
    foldl_processBatch_all_ok _ hB2all, chunkList_flatten hbs]
  dsimp only
  simp only [List.nil_append, Nat.zero_add]
  constructor
  · congr 1
    conv_rhs => rw [← List.take_append_drop bs (rows.drop (bs * k))]
    rw [List.filter_append]
    congr 1
    refine (List.filter_eq_self.mpr fun x hx => ?_).symm
    rw [hB2] at hx
    exact List.all_eq_true.mp hpost x (List.drop_subset _ _ hx)
  · rw [hAlen, hb1filter, hB2]
    simp only [List.length_append, List.length_take, List.length_drop, inf_eq_min]
    omega

/-! ## Lemmas about the destructive reset, the sequence loop and the run -/

theorem truncate_foldl_spec (cfg : MigrationConfig) (ex clearOk : String → Bool) :
    ∀ (l : List String) (st : TruncResult),
      l.foldl (truncateStep cfg ex clearOk) st =
        { attempted := st.attempted ++ l.filter (fun t => ex t)
          cleared := st.cleared ++ l.filter (fun t => ex t && clearOk t)
          truncated_count :=
            st.truncated_count + (l.filter (fun t => ex t && clearOk t)).length } := by
  intro l
  induction l with
  | nil => intro st; simp
  | cons t ts ih =>
    intro st
    rw [List.foldl_cons, ih]
    by_cases hex : ex t
    · by_cases hok : clearOk t
      · simp [truncateStep, hex, hok, List.filter_cons, Nat.add_assoc,
          List.append_assoc, Nat.add_comm]
      · simp [truncateStep, hex, hok, List.filter_cons, List.append_assoc]
    · simp [truncateStep, hex, List.filter_cons, ite_self]

/-- The contribution of one binding to the sequence loop. -/
def sequenceAction (tableEx seqEx : String → Bool) (maxId : String → Nat)
    (b : String × String) : Option (String × Nat) :=
  if tableEx b.1 && seqEx b.2 && decide (0 < maxId b.1) then some (b.2, maxId b.1)
  else none

theorem updateSequencesList_foldl_spec (tableEx seqEx : String → Bool)
    (maxId : String → Nat) :
    ∀ (mappings : List (String × String)) (st : List (String × Nat) × Nat),
      mappings.foldl (sequenceStep tableEx seqEx maxId) st =
        (st.1 ++ mappings.filterMap (sequenceAction tableEx seqEx maxId),
         st.2 + (mappings.filterMap (sequenceAction tableEx seqEx maxId)).length) := by
  intro mappings
  induction mappings with
  | nil => intro st; simp
  | cons b bs ih =>
    intro st
    rw [List.foldl_cons, ih]
    by_cases h1 : tableEx b.1
    · by_cases h2 : seqEx b.2
      · by_cases h3 : 0 < maxId b.1
        · simp [sequenceStep, sequenceAction, h1, h2, h3, List.filterMap_cons,
            List.append_assoc, Nat.add_assoc, Nat.add_comm]
        · simp [sequenceStep, sequenceAction, h1, h2, h3, List.filterMap_cons]
      · simp [sequenceStep, sequenceAction, h1, h2, List.filterMap_cons]
    · simp [sequenceStep, sequenceAction, h1, List.filterMap_cons]

theorem updateSequencesList_spec (tableEx seqEx : String → Bool)
    (maxId : String → Nat) (mappings : List (String × String)) :
    updateSequencesList tableEx seqEx maxId mappings =
      (mappings.filterMap (sequenceAction tableEx seqEx maxId),
       (mappings.filterMap (sequenceAction tableEx seqEx maxId)).length) := by
  rw [updateSequencesList, updateSequencesList_foldl_spec]
  simp

theorem migrate_table_data_extends (ok : α → Bool) (bs : Nat) (dest rows : List α) :
    ∃ ext, (migrate_table_data ok bs dest rows).committed = dest ++ ext := by
  rw [migrate_table_data]
  by_cases h : rows.isEmpty
  · exact ⟨[], by simp [h]⟩
  · refine ⟨((chunkList bs rows).foldl (processBatch ok) ⟨[], 0, []⟩).pending, ?_⟩
    simp [h]

theorem migrateRun_foldl_extends (ok : α → Bool) (bs : Nat) :
    ∀ (tables : List (List α)) (dest : List α) (total : Nat),
      ∃ ext, (tables.foldl
        (fun acc rows =>
          let r := migrate_table_data ok bs acc.1 rows
          (r.committed, acc.2 + r.count)) (dest, total)).1 = dest ++ ext := by
  intro tables
  induction tables with
  | nil => intro dest total; exact ⟨[], by simp⟩
  | cons T ts ih =>
    intro dest total
    obtain ⟨e1, he1⟩ := migrate_table_data_extends ok bs dest T
    obtain ⟨e2, he2⟩ := ih (migrate_table_data ok bs dest T).committed
      (total + (migrate_table_data ok bs dest T).count)
    exact ⟨e1 ++ e2, by rw [List.foldl_cons] at *; rw [he2, he1, List.append_assoc]⟩

/-! ## Lemmas about the ordering resolver -/

theorem priorityWalk_fst_mem :
    ∀ (ps valid : List String) (t : String),
      t ∈ (priorityWalk ps valid).1 → t ∈ ps ∧ t ∈ valid := by
  intro ps
  induction ps with
  | nil => intro valid t ht; simp [priorityWalk] at ht
  | cons p ps ih =>
    intro valid t ht
    rw [priorityWalk] at ht
    by_cases hp : p ∈ valid
    · rw [if_pos hp] at ht
      rcases List.mem_cons.mp ht with h | h
      · exact ⟨h ▸ List.mem_cons_self p ps, h ▸ hp⟩
      · obtain ⟨h1, h2⟩ := ih _ t h
        exact ⟨List.mem_cons_of_mem p h1, List.mem_of_mem_erase h2⟩
    · rw [if_neg hp] at ht
      obtain ⟨h1, h2⟩ := ih _ t ht
      exact ⟨List.mem_cons_of_mem p h1, h2⟩

theorem priorityWalk_snd_eq_filter :
    ∀ (ps valid : List String), valid.Nodup →
      (priorityWalk ps valid).2 = valid.filter (fun v => decide (v ∉ ps)) := by
  intro ps
  induction ps with
  | nil =>
    intro valid _
    rw [priorityWalk]
    exact (List.filter_eq_self.mpr fun a _ => by simp).symm
  | cons p ps ih =>
    intro valid hnd
    rw [priorityWalk]
    by_cases hp : p ∈ valid
    · rw [if_pos hp]
      show (priorityWalk ps (valid.erase p)).2 = _
      rw [ih _ (hnd.erase p), List.Nodup.erase_eq_filter hnd, List.filter_filter]
      refine List.filter_congr fun a _ => ?_
      by_cases h1 : a = p <;> by_cases h2 : a ∈ ps <;> simp [h1, h2]
    · rw [if_neg hp, ih _ hnd]
      refine List.filter_congr fun a ha => ?_
      have : a ≠ p := fun h => hp (h ▸ ha)
      simp [this]

theorem priorityWalk_fst_count :
    ∀ (ps valid : List String), valid.Nodup → ∀ (t : String),
      (priorityWalk ps valid).1.count t =
        if t ∈ ps ∧ t ∈ valid then 1 else 0 := by
  intro ps
  induction ps with
  | nil => intro valid _ t; simp [priorityWalk]
  | cons p ps ih =>
    intro valid hnd t
    rw [priorityWalk]
    by_cases hp : p ∈ valid
    · rw [if_pos hp]
      show List.count t (p :: (priorityWalk ps (valid.erase p)).1) = _
      rw [List.count_cons, ih _ (hnd.erase p) t]
      by_cases ht : t = p
      · subst ht
        have : t ∉ valid.erase t := fun h => ((hnd.mem_erase_iff).mp h).1 rfl
        simp [this, hp]
      · have : t ∈ valid.erase p ↔ t ∈ valid := by
          rw [hnd.mem_erase_iff]
          exact and_iff_right ht
        simp [ht, Ne.symm ht, this]
    · rw [if_neg hp, ih _ hnd t]
      by_cases ht : t = p
      · subst ht
        simp [hp]
      · simp [ht]

theorem priorityWalk_snd_subset :
    ∀ (ps valid : List String), (priorityWalk ps valid).2 ⊆ valid := by
  intro ps
  induction ps with
  | nil => intro valid; rw [priorityWalk]; exact fun _ h => h
  | cons p ps ih =>
    intro valid
    rw [priorityWalk]
    by_cases hp : p ∈ valid
    · rw [if_pos hp]
      exact fun t ht => (valid.erase_subset p) (ih (valid.erase p) ht)
    · rw [if_neg hp]
      exact ih valid

/-! ## The claims -/

/-- C6: transferring a table whose source read returns zero rows commits
nothing new (the destination state is returned unchanged), reports a count of
0, and issues no destination statement at all. -/
theorem C6_empty_source_no_writes (ok : α → Bool) (bs : Nat) (dest : List α) :
    migrate_table_data ok bs dest [] =
      { committed := dest, count := 0, ops := [] } := rfl

/-- C9: for a table that exists in both databases, when the row-count probe
errors on both sides both counts are the sentinel `-1`; the equality test runs
before the empty/mismatch cases, so the table is classified `MATCH`. -/
theorem C9_double_probe_error_is_match :
    get_table_row_count none = -1 ∧
      verify_table_data
        { mysql_exists := true, postgres_exists := true,
          mysql_rows := none, postgres_rows := none } = VStatus.MATCH :=
  ⟨rfl, rfl⟩

/-- C5: the destructive reset attempts a clear exactly on the reverse of the
priority list filtered to tables existing on the destination; every cleared
table comes from the priority list, and no existing priority-list table is
skipped. -/
theorem C5_reset_is_filtered_reverse (cfg : MigrationConfig)
    (ex clearOk : String → Bool) (prio : List String) :
    (truncate_postgres_tables cfg ex clearOk prio).attempted =
        (prio.filter (fun t => ex t)).reverse ∧
    (∀ t, t ∈ (truncate_postgres_tables cfg ex clearOk prio).cleared → t ∈ prio) ∧
    (∀ t, t ∈ prio → ex t = true →
        t ∈ (truncate_postgres_tables cfg ex clearOk prio).attempted) := by
  rw [truncate_postgres_tables, truncate_foldl_spec]
  refine ⟨?_, ?_, ?_⟩
  · show [] ++ List.filter (fun t => ex t) prio.reverse = _
    rw [List.nil_append, List.filter_reverse]
  · intro t ht
    simp only [List.nil_append, List.mem_filter, List.mem_reverse] at ht
    exact ht.1
  · intro t ht hex
    simp only [List.nil_append, List.mem_filter, List.mem_reverse]
    exact ⟨ht, hex⟩

theorem C5_witness :
    (truncate_postgres_tables MIGRATION_CONFIG (fun t => t == "a")
        (fun _ => true) ["a", "b"]).attempted = ["a"] ∧
    "a" ∈ (truncate_postgres_tables MIGRATION_CONFIG (fun t => t == "a")
        (fun _ => true) ["a", "b"]).attempted :=
  ⟨(C5_reset_is_filtered_reverse MIGRATION_CONFIG (fun t => t == "a")
      (fun _ => true) ["a", "b"]).1,
   (C5_reset_is_filtered_reverse MIGRATION_CONFIG (fun t => t == "a")
      (fun _ => true) ["a", "b"]).2.2 "a" (by decide) (by decide)⟩

/-- C7: a binding of the hard-coded sequence table whose table and sequence
both exist on the destination issues `setval` to exactly the maximum primary
key when that maximum is positive, and every issued `setval` arises this way
— so an empty table (maximum 0) and a binding with a missing table or
sequence contribute no sequence change. -/
theorem C7_sequence_reconciler (tableEx seqEx : String → Bool)
    (maxId : String → Nat) :
    (∀ t sq, (t, sq) ∈ sequence_mappings → tableEx t = true → seqEx sq = true →
        0 < maxId t →
        (sq, maxId t) ∈ (update_sequences tableEx seqEx maxId).1) ∧
    (∀ sq N, (sq, N) ∈ (update_sequences tableEx seqEx maxId).1 →
        ∃ t, (t, sq) ∈ sequence_mappings ∧ tableEx t = true ∧ seqEx sq = true ∧
          maxId t = N ∧ 0 < N) := by
  rw [update_sequences, updateSequencesList_spec]
  constructor
  · intro t sq hmem h1 h2 h3
    exact List.mem_filterMap.mpr
      ⟨(t, sq), hmem, by simp [sequenceAction, h1, h2, h3]⟩
  · intro sq N hmem
    obtain ⟨b, hb, hab⟩ := List.mem_filterMap.mp hmem
    rw [sequenceAction] at hab
    by_cases hcond : tableEx b.1 && seqEx b.2 && decide (0 < maxId b.1)
    · rw [if_pos hcond, Option.some.injEq, Prod.mk.injEq] at hab
      simp only [Bool.and_eq_true, decide_eq_true_eq] at hcond
      exact ⟨b.1, by rwa [← hab.1], hcond.1.1, hab.1 ▸ hcond.1.2,
        hab.2, hab.2 ▸ hcond.2⟩
    · rw [if_neg hcond] at hab
      exact absurd hab (Option.noConfusion)

theorem C7_witness :
    ("x_user_seq", 7) ∈ (update_sequences (fun t => t == "x_user")
        (fun _ => true) (fun _ => 7)).1 :=
  (C7_sequence_reconciler (fun t => t == "x_user") (fun _ => true)
      (fun _ => 7)).1 "x_user" "x_user_seq" (by decide) (by decide) (by decide)
    (by decide)

/-- C10: the destructive reset behaves identically under either value of
`skip_missing_tables` — same result (attempted tables, cleared tables,
cleared count), and a table absent from the destination is never truncated
under either setting. -/
theorem C10_reset_independent_of_flag (cfg : MigrationConfig)
    (ex clearOk : String → Bool) (prio : List String) (b1 b2 : Bool) :
    truncate_postgres_tables { cfg with skip_missing_tables := b1 } ex clearOk prio =
      truncate_postgres_tables { cfg with skip_missing_tables := b2 } ex clearOk prio ∧
    (∀ t, ex t = false →
      t ∉ (truncate_postgres_tables { cfg with skip_missing_tables := b1 }
            ex clearOk prio).attempted) := by
  constructor
  · rw [truncate_postgres_tables, truncate_postgres_tables,
      truncate_foldl_spec, truncate_foldl_spec]
  · intro t hex ht
    rw [truncate_postgres_tables, truncate_foldl_spec] at ht
    simp only [List.nil_append, List.mem_filter, hex] at ht
    exact Bool.false_ne_true ht.2

theorem C10_witness :
    truncate_postgres_tables { MIGRATION_CONFIG with skip_missing_tables := true }
        (fun _ => false) (fun _ => true) ["a"] =
      truncate_postgres_tables { MIGRATION_CONFIG with skip_missing_tables := false }
        (fun _ => false) (fun _ => true) ["a"] ∧
    "a" ∉ (truncate_postgres_tables { MIGRATION_CONFIG with skip_missing_tables := true }
        (fun _ => false) (fun _ => true) ["a"]).attempted :=
  ⟨(C10_reset_independent_of_flag MIGRATION_CONFIG (fun _ => false)
      (fun _ => true) ["a"] true false).1,
   (C10_reset_independent_of_flag MIGRATION_CONFIG (fun _ => false)
      (fun _ => true) ["a"] true false).2 "a" rfl⟩

/-- C3 counterexample: with `skip_missing_tables` disabled, a source table
absent from the destination is still dropped by the candidate filter of
`get_mysql_tables_ordered` (the code never consults the flag there), so the
claimed "only if the flag is enabled" direction fails. -/
theorem C3_counterexample :
    get_mysql_tables_ordered { MIGRATION_CONFIG with skip_missing_tables := false }
      (fun _ => false) (fun _ => false) [] ["x_user"] = [] := by decide

/-- C3 amended: the ordering resolver of the migration path drops every
candidate absent from the destination unconditionally — under any value of
`skip_missing_tables` (the flag is never read by this filter). -/
theorem C3_missing_always_dropped (cfg : MigrationConfig) (isV ex : String → Bool)
    (prio allTables : List String) (t : String) (hex : ex t = false) :
    t ∉ get_mysql_tables_ordered cfg isV ex prio allTables := by
  intro ht
  have hvalid : t ∉ validTables cfg isV ex allTables := by
    intro hv
    have := (List.mem_filter.mp hv).2
    rw [eligibleTable, hex] at this
    simp at this
  rw [get_mysql_tables_ordered] at ht
  rcases List.mem_append.mp ht with h | h
  · exact hvalid (priorityWalk_fst_mem _ _ t h).2
  · exact hvalid (priorityWalk_snd_subset _ _
      ((List.perm_insertionSort _ _).mem_iff.mp h))

theorem C3_witness :
    "x_user" ∉ get_mysql_tables_ordered MIGRATION_CONFIG (fun _ => false)
      (fun _ => false) PRIORITY_TABLES_ORDER ["x_user"] :=
  C3_missing_always_dropped MIGRATION_CONFIG (fun _ => false) (fun _ => false)
    PRIORITY_TABLES_ORDER ["x_user"] "x_user" rfl

/-- C8 counterexample: a table probed with 0 source rows and 5 destination
rows gets status `EMPTY_MYSQL`, which `main` does not treat as a failure: the
run exits 0 even though the checked table's row counts do not match — so
"exits 0 only when every checked table's counts match" fails. -/
theorem C8_counterexample :
    verifyExitCode [(⟨true, true, some 0, some 5⟩ : TableProbe)] = 0 ∧
    verify_table_data (⟨true, true, some 0, some 5⟩ : TableProbe) =
      VStatus.EMPTY_MYSQL ∧
    get_table_row_count (some 0) ≠ get_table_row_count (some 5) := by
  refine ⟨rfl, rfl, by decide⟩

/-- C8 amended: the verification pass exits 0 if and only if no checked table
has status `MISMATCH`, `MISSING_POSTGRES`, or `EMPTY_POSTGRES`.  (Exit 0 does
not require all row counts to match: statuses `EMPTY_MYSQL`, `MISSING_MYSQL`
and `MISSING_BOTH` never fail the run.) -/
theorem C8_exit_zero_iff_no_failure_status (probes : List TableProbe) :
    verifyExitCode probes = 0 ↔
      ∀ p ∈ probes, isFailureStatus (verify_table_data p) = false := by
  by_cases h : (probes.filter (fun p => isFailureStatus (verify_table_data p))).isEmpty
  · rw [verifyExitCode, if_pos h]
    rw [List.isEmpty_iff, List.filter_eq_nil_iff] at h
    exact iff_of_true rfl fun p hp => by
      have := h p hp
      simpa using this
  · rw [verifyExitCode, if_neg h]
    rw [List.isEmpty_iff, List.filter_eq_nil_iff] at h
    refine iff_of_false (by simp) fun hall => ?_
    exact h fun p hp => by simp [hall p hp]

theorem C8_witness :
    verifyExitCode [(⟨true, true, some 2, some 2⟩ : TableProbe)] = 0 :=
  (C8_exit_zero_iff_no_failure_status _).mpr fun p hp => by
    rw [List.mem_singleton] at hp
    subst hp
    rfl

/-- C4: the ordering resolver is deterministic (equal inputs, equal output),
every eligible name appears exactly once in the output, every eligible name
in the priority list precedes every eligible name outside it, and the names
outside the priority list appear in ascending lexicographic order. -/
theorem C4_resolver_order (cfg : MigrationConfig) (isV ex : String → Bool)
    (prio : List String) (allTables allTables2 : List String)
    (hnd : allTables.Nodup) (heq : allTables = allTables2) :
    get_mysql_tables_ordered cfg isV ex prio allTables =
        get_mysql_tables_ordered cfg isV ex prio allTables2 ∧
    (∀ t, t ∈ allTables → eligibleTable cfg isV ex t = true →
        (get_mysql_tables_ordered cfg isV ex prio allTables).count t = 1) ∧
    (∀ (i j : Nat) (hi : i < (get_mysql_tables_ordered cfg isV ex prio allTables).length)
        (hj : j < (get_mysql_tables_ordered cfg isV ex prio allTables).length),
        (get_mysql_tables_ordered cfg isV ex prio allTables).get ⟨i, hi⟩ ∈ prio →
        (get_mysql_tables_ordered cfg isV ex prio allTables).get ⟨j, hj⟩ ∉ prio →
        i < j) ∧
    List.Sorted (fun a b => a ≤ b)
      ((get_mysql_tables_ordered cfg isV ex prio allTables).filter
        (fun t => decide (t ∉ prio))) := by
  subst heq
  have hvnd : (validTables cfg isV ex allTables).Nodup := hnd.filter _
  have hw2 : (priorityWalk prio (validTables cfg isV ex allTables)).2 =
      (validTables cfg isV ex allTables).filter (fun v => decide (v ∉ prio)) :=
    priorityWalk_snd_eq_filter prio _ hvnd
  have hout : get_mysql_tables_ordered cfg isV ex prio allTables =
      (priorityWalk prio (validTables cfg isV ex allTables)).1 ++
        List.insertionSort (fun a b => a ≤ b)
          (priorityWalk prio (validTables cfg isV ex allTables)).2 := rfl
  have hsnd : ∀ x, x ∈ List.insertionSort (fun a b => a ≤ b)
      (priorityWalk prio (validTables cfg isV ex allTables)).2 → x ∉ prio := by
    intro x hx
    have hx2 := (List.perm_insertionSort (fun a b => a ≤ b) _).mem_iff.mp hx
    rw [hw2] at hx2
    have := (List.mem_filter.mp hx2).2
    simpa using this
  have hfst : ∀ x, x ∈ (priorityWalk prio (validTables cfg isV ex allTables)).1 →
      x ∈ prio := fun x hx => (priorityWalk_fst_mem _ _ x hx).1
  refine ⟨rfl, ?_, ?_, ?_⟩
  · intro t ht helig
    have htv : t ∈ validTables cfg isV ex allTables := List.mem_filter.mpr ⟨ht, helig⟩
    rw [hout, List.count_append,
      (List.perm_insertionSort (fun a b => a ≤ b) _).count_eq t,
      priorityWalk_fst_count prio _ hvnd t, hw2]
    by_cases hp : t ∈ prio
    · rw [if_pos ⟨hp, htv⟩, List.count_eq_zero.mpr]
      intro hmem
      have := (List.mem_filter.mp hmem).2
      simp [hp] at this
    · rw [if_neg (fun hc => hp hc.1),
        List.count_eq_one_of_mem (hvnd.filter _)
          (List.mem_filter.mpr ⟨htv, by simp [hp]⟩)]
  · intro i j hi hj hpi hpj
    have hi2 : i < ((priorityWalk prio (validTables cfg isV ex allTables)).1 ++
        List.insertionSort (fun a b => a ≤ b)
          (priorityWalk prio (validTables cfg isV ex allTables)).2).length := hi
    have hj2 : j < ((priorityWalk prio (validTables cfg isV ex allTables)).1 ++
        List.insertionSort (fun a b => a ≤ b)
          (priorityWalk prio (validTables cfg isV ex allTables)).2).length := hj
    have hpi2 : ((priorityWalk prio (validTables cfg isV ex allTables)).1 ++
        List.insertionSort (fun a b => a ≤ b)
          (priorityWalk prio (validTables cfg isV ex allTables)).2).get ⟨i, hi2⟩ ∈
        prio := hpi
    have hpj2 : ((priorityWalk prio (validTables cfg isV ex allTables)).1 ++
        List.insertionSort (fun a b => a ≤ b)
          (priorityWalk prio (validTables cfg isV ex allTables)).2).get ⟨j, hj2⟩ ∉
        prio := hpj
    have hi1 : i < (priorityWalk prio (validTables cfg isV ex allTables)).1.length := by
      by_contra hge
      push_neg at hge
      rw [List.get_eq_getElem, List.getElem_append,
        dif_neg (Nat.not_lt.mpr hge)] at hpi2
      exact hsnd _ (List.getElem_mem _) hpi2
    have hj1 : ¬ j < (priorityWalk prio (validTables cfg isV ex allTables)).1.length := by
      intro hlt
      rw [List.get_eq_getElem, List.getElem_append, dif_pos hlt] at hpj2
      exact hpj2 (hfst _ (List.getElem_mem _))
    omega
  · rw [hout, List.filter_append,
      List.filter_eq_nil_iff.mpr (fun a ha => by simp [hfst a ha]),
      List.filter_eq_self.mpr (fun a ha => by simp [hsnd a ha]),
      List.nil_append]
    exact List.sorted_insertionSort _ _

theorem C4_witness :
    (get_mysql_tables_ordered MIGRATION_CONFIG (fun _ => false) (fun _ => true)
        ["p"] ["b", "a", "p"]).count "a" = 1 ∧
    (get_mysql_tables_ordered MIGRATION_CONFIG (fun _ => false) (fun _ => true)
        ["p"] ["b", "a", "p"]).count "p" = 1 :=
  ⟨(C4_resolver_order MIGRATION_CONFIG (fun _ => false) (fun _ => true)
      ["p"] ["b", "a", "p"] ["b", "a", "p"] (by decide) rfl).2.1 "a"
      (by decide) (by decide),
   (C4_resolver_order MIGRATION_CONFIG (fun _ => false) (fun _ => true)
      ["p"] ["b", "a", "p"] ["b", "a", "p"] (by decide) rfl).2.1 "p"
      (by decide) (by decide)⟩

/-- C1 counterexample: rows `[1,2,3,4]`, batch size 2, exactly one row (the
value 3) violating a destination constraint.  The returned count is 3 (total
minus one), but only `[4]` is committed: batch `[1,2]` succeeded, yet its
uncommitted rows were discarded by the connection-level rollback in the
fallback handler of batch `[3,4]` — so the final committed count is 1, not
`total - 1`, and the rows of the other batch do not land. -/
theorem C1_counterexample :
    (migrate_table_data (fun n => decide (n ≠ 3)) 2 ([] : List Nat)
        [1, 2, 3, 4]).committed = [4] ∧
    (migrate_table_data (fun n => decide (n ≠ 3)) 2 ([] : List Nat)
        [1, 2, 3, 4]).count = 3 ∧
    (migrate_table_data (fun n => decide (n ≠ 3)) 2 ([] : List Nat)
        [1, 2, 3, 4]).committed.length ≠ 4 - 1 :=
  ⟨by decide, by decide, by decide⟩

/-- C1 amended: with exactly one constraint-violating row `r` (rows are
`pre ++ r :: post`, everything in `pre` and `post` inserts fine), the
reported migrated count is the total row count minus one and the run is not
aborted (a following all-fine table still commits in full), but the rows that
actually land are only the fine rows from the start of the batch containing
`r` onward: batches before the failing one are lost to the rollback, so the
committed count equals total minus one exactly when `r` falls in the first
batch. -/
theorem C1_fallback_isolation (ok : α → Bool) (bs : Nat) (dest : List α)
    (pre post : List α) (r : α) (hbs : bs ≠ 0) (hpre : pre.all ok = true)
    (hr : ok r = false) (hpost : post.all ok = true) :
    (migrate_table_data ok bs dest (pre ++ r :: post)).count =
        pre.length + post.length ∧
    (migrate_table_data ok bs dest (pre ++ r :: post)).committed =
        dest ++ ((pre ++ r :: post).drop (bs * (pre.length / bs))).filter ok ∧
    (∀ rows2 : List α, rows2.all ok = true →
        (migrateRun ok bs dest [pre ++ r :: post, rows2]).1 =
          dest ++ ((pre ++ r :: post).drop (bs * (pre.length / bs))).filter ok
            ++ rows2) := by
  obtain ⟨hc, hn⟩ := migrate_one_bad hbs hpre hr hpost dest
  refine ⟨hn, hc, ?_⟩
  intro rows2 h2
  rw [migrateRun, List.foldl_cons, List.foldl_cons, List.foldl_nil]
  dsimp only
  rw [(migrate_table_data_all_ok hbs h2 _).1, hc, List.append_assoc]

theorem C1_witness :
    (migrate_table_data (fun n => decide (n ≠ 3)) 2 ([] : List Nat)
        ([1, 2] ++ 3 :: [4])).count =
      ([1, 2] : List Nat).length + ([4] : List Nat).length :=
  (C1_fallback_isolation (fun n => decide (n ≠ 3)) 2 [] [1, 2] [4] 3
    (by decide) (by decide) (by decide) (by decide)).1

/-- C2 counterexample: batch size 1, rows `[0, 1]` with row 1 violating.  The
batch insert of `[0]` succeeds (its rows join the transaction, the count is
accrued, no rollback is issued), yet the table's final committed state is
empty: the failure of the later batch `[1]` rolled the earlier batch's rows
back — a successful batch insert is not its own commit boundary. -/
theorem C2_counterexample :
    processBatch (fun n => decide (n = 0))
        (⟨[], 0, []⟩ : TableRunState Nat) [0] =
      ⟨[0], 1, [DbOp.insertBatch [0]]⟩ ∧
    (migrate_table_data (fun n => decide (n = 0)) 1 ([] : List Nat)
        [0, 1]).committed = [] :=
  ⟨by decide, by decide⟩

/-- C2 amended: the per-unit commit boundaries are each table's destructive
clear, each sequence update, and each table's whole transfer (committed once
after all its batches) — not each batch insert.  Clears committed by a prefix
of the reset loop survive whatever the rest of the loop does; setval actions
committed by a prefix of the sequence loop survive the rest of the loop; and
a table's committed rows survive the transfers of all later tables. -/
theorem C2_unit_commit_boundaries (cfg : MigrationConfig)
    (ex clearOk : String → Bool) (tableExS seqExS : String → Bool)
    (maxId : String → Nat) (ok : α → Bool) (bs : Nat) :
    (∀ (l1 l2 : List String) (st : TruncResult),
      ∃ ext, ((l1 ++ l2).foldl (truncateStep cfg ex clearOk) st).cleared =
        (l1.foldl (truncateStep cfg ex clearOk) st).cleared ++ ext) ∧
    (∀ (m1 m2 : List (String × String)),
      ∃ ext, (updateSequencesList tableExS seqExS maxId (m1 ++ m2)).1 =
        (updateSequencesList tableExS seqExS maxId m1).1 ++ ext) ∧
    (∀ (dest : List α) (T : List α) (rest : List (List α)),
      ∃ ext, (migrateRun ok bs dest (T :: rest)).1 =
        (migrate_table_data ok bs dest T).committed ++ ext) := by
  refine ⟨?_, ?_, ?_⟩
  · intro l1 l2 st
    exact ⟨l2.filter (fun t => ex t && clearOk t),
      by rw [List.foldl_append, truncate_foldl_spec]⟩
  · intro m1 m2
    have h1 : updateSequencesList tableExS seqExS maxId (m1 ++ m2) =
        m2.foldl (sequenceStep tableExS seqExS maxId)
          (updateSequencesList tableExS seqExS maxId m1) := by
      rw [updateSequencesList, updateSequencesList, List.foldl_append]
    exact ⟨m2.filterMap (sequenceAction tableExS seqExS maxId),
      by rw [h1, updateSequencesList_foldl_spec]⟩
  · intro dest T rest
    rw [migrateRun, List.foldl_cons]
    exact migrateRun_foldl_extends ok bs rest
      (migrate_table_data ok bs dest T).committed
      (0 + (migrate_table_data ok bs dest T).count)

end RangerMigration
